import Mathlib

/-!
Verification development for the onos-config-model registry service.

This file gives a shallow embedding of the core components of the
repository — the model registry (`pkg/model/registry/registry.go`), the
module resolver (`pkg/model/plugin/module/resolver.go`), the plugin cache
(`pkg/model/plugin/cache/cache.go`) and the gRPC service facade
(`Server.PushModel` et al.) — and proves the specification claims about
them.

Modelling conventions:
* The file system is an association list from paths to contents; reads,
  writes, stats and removals are explicit.  `filepath.Join` on clean,
  non-empty segments is modelled as concatenation with "/".
* External calls (the `modfile` parser, `go get` / `go env` subprocesses,
  `module.EncodePath`, the plugin dlopen, the plugin compiler) are supplied
  by an `Oracle` of response functions; every invocation is additionally
  recorded in an event trace so that "runs no subprocess" style claims are
  about the trace.
* Go's `error` values are modelled by the inductive `Err`; machine bytes
  are natural numbers below 256 (no overflow arithmetic is involved).
-/

namespace Onos

/-- Raw file contents: a byte is a natural number (always < 256 in practice). -/
abbrev Bytes := List Nat

/-- A flat file system: an association list from path to contents. -/
abbrev Fs (α : Type) := List (String × α)

/-- Read a file (`ioutil.ReadFile` / successful `os.Stat`): first binding wins. -/
def fsRead {α : Type} : Fs α → String → Option α
  | [], _ => none
  | (q, v) :: rest, p => if q = p then some v else fsRead rest p

/-- Remove every binding of a path (`os.Remove` on a map-like store). -/
def fsRemove {α : Type} : Fs α → String → Fs α
  | [], _ => []
  | (q, v) :: rest, p => if q = p then fsRemove rest p else (q, v) :: fsRemove rest p

/-- Write a file, silently overwriting any existing binding (`ioutil.WriteFile`). -/
def fsWrite {α : Type} (fs : Fs α) (p : String) (v : α) : Fs α :=
  (p, v) :: fsRemove fs p

/-- File-existence test (`os.Stat` + `!os.IsNotExist(err)`). -/
def fsMem {α : Type} (fs : Fs α) (p : String) : Bool :=
  (fsRead fs p).isSome

/-- Join two path segments (`filepath.Join` on clean non-empty segments). -/
def pjoin (a b : String) : String := a ++ "/" ++ b

/-- Error values of the system, following the onos-lib-go error categories
(spec section 7) plus the raw operating-system and parser errors that the
code returns unwrapped. -/
inductive Err where
  | notFound (msg : String)
  | alreadyExists (msg : String)
  | invalid (msg : String)
  | conflict (msg : String)
  | internal (msg : String)
  | pathError (path : String)
  | parseError (path : String)
deriving DecidableEq, Repr

/-- Modelled from the spec: `errors.IsNotFound` lives in onos-lib-go, outside
this repository.  Per the spec's section 7 interface ("NotFound — descriptor
or artifact missing") a read of a missing file is classified NotFound, as is
a typed NotFound error. -/
def isNotFound : Err → Bool
  | .notFound _ => true
  | .pathError _ => true
  | _ => false

/-- Observable effects of an execution: subprocess launches, file-system
touches, plugin loads, and the internal calls the claims talk about. -/
inductive Event where
  | execCmd (dir : String) (argv : List String)
  | readFile (path : String)
  | writeFile (path : String)
  | statFile (path : String)
  | openPlugin (path : String)
  | callFetchMod
  | compileCall (path : String)
  | regWrite (path : String)
deriving DecidableEq, Repr

/-- Whether an event is a subprocess launch. -/
def Event.isExec : Event → Bool
  | .execCmd _ _ => true
  | _ => false

/-- The URL-safe base64 alphabet (RFC 4648), as used by Go's
`base64.URLEncoding`. -/
def b64UrlAlphabet : List Char :=
  [ 'A', 'B', 'C', 'D', 'E', 'F', 'G', 'H', 'I', 'J', 'K', 'L', 'M',
    'N', 'O', 'P', 'Q', 'R', 'S', 'T', 'U', 'V', 'W', 'X', 'Y', 'Z',
    'a', 'b', 'c', 'd', 'e', 'f', 'g', 'h', 'i', 'j', 'k', 'l', 'm',
    'n', 'o', 'p', 'q', 'r', 's', 't', 'u', 'v', 'w', 'x', 'y', 'z',
    '0', '1', '2', '3', '4', '5', '6', '7', '8', '9', '-', '_' ]

/-- The character for a 6-bit group. -/
def b64Digit (n : Nat) : Char := b64UrlAlphabet.getD n 'A'

/-- Go's `base64.URLEncoding.EncodeToString`: URL-safe alphabet with '='
padding, three input bytes per four output characters. -/
def base64UrlEncode : Bytes → String
  | [] => ""
  | [a] =>
    String.mk [b64Digit (a / 4), b64Digit (a % 4 * 16), '=', '=']
  | [a, b] =>
    String.mk [b64Digit (a / 4), b64Digit (a % 4 * 16 + b / 16), b64Digit (b % 16 * 4), '=']
  | a :: b :: c :: rest =>
    String.mk [b64Digit (a / 4), b64Digit (a % 4 * 16 + b / 16),
      b64Digit (b % 16 * 4 + c / 64), b64Digit (c % 64)] ++ base64UrlEncode rest

/-- Bytes of an ASCII string (used for literal file contents in the model). -/
def strBytes (s : String) : Bytes := s.toList.map Char.toNat

/-! ## JSON documents

Go's `encoding/json` output for the descriptor structs is modelled at the
level of a JSON syntax tree; a `[]byte` field marshals to its base64 text,
which is a bijection, so it is kept as a `bytes` leaf. -/

/-- A JSON document. -/
inductive Json where
  | null
  | str (s : String)
  | bytes (bs : Bytes)
  | arr (elems : List Json)
  | obj (fields : List (String × Json))

/-- Field lookup in a JSON object (`encoding/json` matches keys by name). -/
def jField : List (String × Json) → String → Option Json
  | [], _ => none
  | (k, v) :: rest, key => if k = key then some v else jField rest key

/-- Decode an optional JSON value as a Go string: an absent or null field
leaves the zero value "", any non-string value is a type error. -/
def jAsStr : Option Json → Option String
  | none => some ""
  | some .null => some ""
  | some (.str s) => some s
  | some _ => none

/-- Decode an optional JSON value as a Go `[]byte`. -/
def jAsBytes : Option Json → Option Bytes
  | none => some []
  | some .null => some []
  | some (.bytes bs) => some bs
  | some _ => none

/-- Decode an optional JSON value as a Go slice, element-wise. -/
def jAsArr (f : Json → Option α) : Option Json → Option (List α)
  | none => some []
  | some .null => some []
  | some (.arr xs) => decodeElems f xs
  | some _ => none
where
  /-- Decode every element or fail. -/
  decodeElems (f : Json → Option α) : List Json → Option (List α)
  | [] => some []
  | x :: xs =>
    match f x, decodeElems f xs with
    | some a, some as => some (a :: as)
    | _, _ => none

/-! ## Descriptor data model

Modelled from the spec: the `configmodel.ModelInfo` struct family is
declared in `pkg/model` of this repository but the declaration file is not
among the provided sources; only its callers and tests are.  Fields and
JSON tags follow spec sections 3 and 6 ("fields exactly `name`, `version`,
`modules[]{name, organization, revision, file}`, `files[]{path, data-bytes}`,
`plugin{name, version}`"), matching every use in
`src/unnamed/part_009` and the tests. -/

/-- A YANG module reference (`configmodel.ModuleInfo`). -/
structure ModuleInfo where
  name : String
  file : String
  organization : String
  revision : String
deriving DecidableEq, Repr

/-- A model source file (`configmodel.FileInfo`). -/
structure FileInfo where
  path : String
  data : Bytes
deriving DecidableEq, Repr

/-- Plugin coordinates carried by a descriptor (`configmodel.PluginInfo`). -/
structure PluginInfo where
  name : String
  version : String
deriving DecidableEq, Repr

/-- A model descriptor (`configmodel.ModelInfo`). -/
structure ModelInfo where
  name : String
  version : String
  modules : List ModuleInfo
  files : List FileInfo
  plugin : PluginInfo
deriving DecidableEq, Repr

/-- JSON encoding of a module reference. -/
def encodeModuleInfo (m : ModuleInfo) : Json :=
  .obj [("name", .str m.name), ("file", .str m.file),
        ("organization", .str m.organization), ("revision", .str m.revision)]

/-- JSON encoding of a file record. -/
def encodeFileInfo (f : FileInfo) : Json :=
  .obj [("path", .str f.path), ("data", .bytes f.data)]

/-- JSON encoding of a plugin record. -/
def encodePluginInfo (p : PluginInfo) : Json :=
  .obj [("name", .str p.name), ("version", .str p.version)]

/-- JSON encoding of a descriptor (`json.MarshalIndent`; indentation does not
change the document). -/
def encodeModelInfo (m : ModelInfo) : Json :=
  .obj [("name", .str m.name), ("version", .str m.version),
        ("modules", .arr (m.modules.map encodeModuleInfo)),
        ("files", .arr (m.files.map encodeFileInfo)),
        ("plugin", encodePluginInfo m.plugin)]

/-- JSON decoding of a module reference (`json.Unmarshal`). -/
def decodeModuleInfo : Json → Option ModuleInfo
  | .obj fields =>
    match jAsStr (jField fields "name"), jAsStr (jField fields "file"),
        jAsStr (jField fields "organization"), jAsStr (jField fields "revision") with
    | some n, some f, some o, some r => some ⟨n, f, o, r⟩
    | _, _, _, _ => none
  | _ => none

/-- JSON decoding of a file record. -/
def decodeFileInfo : Json → Option FileInfo
  | .obj fields =>
    match jAsStr (jField fields "path"), jAsBytes (jField fields "data") with
    | some p, some d => some ⟨p, d⟩
    | _, _ => none
  | _ => none

/-- JSON decoding of a plugin record. -/
def decodePluginInfo : Option Json → Option PluginInfo
  | none => some ⟨"", ""⟩
  | some .null => some ⟨"", ""⟩
  | some (.obj fields) =>
    match jAsStr (jField fields "name"), jAsStr (jField fields "version") with
    | some n, some v => some ⟨n, v⟩
    | _, _ => none
  | some _ => none

/-- JSON decoding of a descriptor. -/
def decodeModelInfo : Json → Option ModelInfo
  | .obj fields =>
    match jAsStr (jField fields "name"), jAsStr (jField fields "version"),
        jAsArr decodeModuleInfo (jField fields "modules"),
        jAsArr decodeFileInfo (jField fields "files"),
        decodePluginInfo (jField fields "plugin") with
    | some n, some v, some ms, some fs, some p => some ⟨n, v, ms, fs, p⟩
    | _, _, _, _, _ => none
  | _ => none

/-! ## Model registry (`pkg/model/registry/registry.go`)

A registry is a directory of one JSON descriptor file per model; its file
system is a `Fs Json` since each registry file holds one JSON document. -/

/-- Registry configuration (`modelregistry.Config`). -/
structure RegistryConfig where
  path : String
deriving DecidableEq, Repr

/-- Descriptor file path (`ConfigModelRegistry.getDescriptorFile`):
`filepath.Join(r.Config.Path, fmt.Sprintf("%s-%s.json", name, version))`. -/
def getDescriptorFile (cfg : RegistryConfig) (name version : String) : String :=
  pjoin cfg.path (name ++ "-" ++ version ++ ".json")

/-- Load one descriptor file (`modelregistry.loadModel`): read the bytes,
decode the JSON, then reject an empty name or version as Invalid. -/
def loadModel (fs : Fs Json) (path : String) : Except Err ModelInfo :=
  match fsRead fs path with
  | none => .error (.pathError path)
  | some doc =>
    match decodeModelInfo doc with
    | none => .error (.parseError path)
    | some mi =>
      if mi.name = "" ∨ mi.version = "" then
        .error (.invalid (path ++ " is not a valid model descriptor"))
      else .ok mi

/-- Get a model by name and version (`ConfigModelRegistry.GetModel`). -/
def GetModel (cfg : RegistryConfig) (fs : Fs Json) (name version : String) :
    Except Err ModelInfo :=
  loadModel fs (getDescriptorFile cfg name version)

/-- Add a model (`ConfigModelRegistry.AddModel`): marshal to indented JSON and
write `{path}/{name}-{version}.json`, silently overwriting. -/
def AddModel (cfg : RegistryConfig) (fs : Fs Json) (m : ModelInfo) : Fs Json :=
  fsWrite fs (getDescriptorFile cfg m.name m.version) (encodeModelInfo m)

/-- Remove a model (`ConfigModelRegistry.RemoveModel`): stat the descriptor
file and unlink it only when the stat does not report not-exist. -/
def RemoveModel (cfg : RegistryConfig) (fs : Fs Json) (name version : String) :
    Except Err (Fs Json) :=
  let path := getDescriptorFile cfg name version
  if fsMem fs path then .ok (fsRemove fs path) else .ok fs

/-- The files collected by `loadModels`' directory walk: every path under the
root carrying the `.json` suffix. -/
def jsonFilesUnder (fs : Fs Json) (root : String) : List String :=
  (fs.map Prod.fst).filter fun p =>
    (p = root || (root ++ "/").isPrefixOf p) && p.endsWith ".json"

/-- Load every collected descriptor or fail on the first bad one
(`modelregistry.loadModels`). -/
def loadModelsFrom (fs : Fs Json) : List String → Except Err (List ModelInfo)
  | [] => .ok []
  | p :: rest =>
    match loadModel fs p with
    | .error e => .error e
    | .ok m =>
      match loadModelsFrom fs rest with
      | .error e => .error e
      | .ok ms => .ok (m :: ms)

/-- List the registry (`ConfigModelRegistry.ListModels`). -/
def ListModels (cfg : RegistryConfig) (fs : Fs Json) : Except Err (List ModelInfo) :=
  loadModelsFrom fs (jsonFilesUnder fs cfg.path)

/-! ## Module resolver (`pkg/model/plugin/module/resolver.go`)

The resolver's external collaborators — the `modfile` parser,
`module.EncodePath`, temp-directory creation, and the `go get` / `go env`
subprocesses — are supplied by an `Oracle`; each subprocess launch is
recorded as an `Event.execCmd` in the trace.  The resolver file system
(`Fs Bytes`) covers the resolver path as well as the Go module cache. -/

/-- A requirement line of a parsed `go.mod` (`modfile.Require`). -/
structure ModRequire where
  path : String
  version : String
deriving DecidableEq, Repr

/-- A replace line of a parsed `go.mod` (`modfile.Replace`). -/
structure ModReplace where
  oldPath : String
  oldVersion : String
  newPath : String
  newVersion : String
deriving DecidableEq, Repr

/-- A parsed `go.mod` (`modfile.File`): the directives the code consults plus
the bytes `Format()` would emit. -/
structure ModFile where
  requireList : List ModRequire
  replaceList : List ModReplace
  formatted : Bytes
deriving DecidableEq, Repr

/-- The `go env` record (`goEnv`). -/
structure GoEnv where
  gopath : String
  gomodcache : String
deriving DecidableEq, Repr

/-- Responses of the external collaborators. -/
structure Oracle where
  /-- Result of `modfile.Parse(path, bytes, nil)`. -/
  parse : String → Bytes → Option ModFile
  /-- Result of `ioutil.TempDir("", "config-model")`. -/
  tempDir : Option String
  /-- Result of `go get -d <target>`: the updated temporary `go.mod` bytes on
  success, `none` on a non-zero exit. -/
  goGet : String → Option Bytes
  /-- Result of `go env -json GOPATH GOMODCACHE` plus its JSON decoding. -/
  goEnv : Option GoEnv
  /-- Result of `module.EncodePath`. -/
  encodePath : String → Option String
  /-- Result of `modelplugin.Load` at a path (the dlopen plus the symbol
  check), `.ok` meaning a well-shaped plugin. -/
  loadPlugin : String → Except Err Unit
  /-- Result of `PluginCompiler.CompilePlugin`: the artifact bytes on
  success. -/
  compile : ModelInfo → String → Except Err Bytes

/-- Resolver configuration (`pluginmodule.ResolverConfig`). -/
structure ResolverConfig where
  path : String
  target : String
  replace : String
deriving DecidableEq, Repr

/-- Split `path@version` (`splitModPathVersion`). -/
def splitModPathVersion (mod : String) : String × String :=
  match mod.splitOn "@" with
  | [] => (mod, "")
  | [p] => (p, "")
  | p :: rest => (p, String.intercalate "@" rest)

/-- `Resolver.getModPath`. -/
def getModPath (cfg : ResolverConfig) : String := pjoin cfg.path "go.mod"

/-- `Resolver.getHashPath`. -/
def getHashPath (cfg : ResolverConfig) : String := pjoin cfg.path "mod.md5"

/-- Outcome of a resolver or cache operation: the returned value, the file
system afterwards, and the trace of observable events. -/
structure ROut (α : Type) where
  result : Except Err α
  fs : Fs Bytes
  trace : List Event

/-- `getGoModCacheDir`: run `go env` (a subprocess) and fall back to
`{GOPATH}/pkg/mod` when GOMODCACHE is unset. -/
def getGoModCacheDir (O : Oracle) (fs : Fs Bytes) : ROut String :=
  match O.goEnv with
  | none => ⟨.error (.internal "go env"), fs, [.execCmd "." ["go", "env", "-json", "GOPATH", "GOMODCACHE"]]⟩
  | some env =>
    let dir := if env.gomodcache = "" then pjoin (pjoin env.gopath "pkg") "mod" else env.gomodcache
    ⟨.ok dir, fs, [.execCmd "." ["go", "env", "-json", "GOPATH", "GOMODCACHE"]]⟩

/-- Body of `Resolver.fetchMod` after the temp directory exists: write the
stub module, run `go get -d`, parse the result, locate the module's own
manifest and ziphash in the Go module cache. -/
def fetchModBody (cfg : ResolverConfig) (O : Oracle) (fs : Fs Bytes) (tmp : String) :
    ROut (ModFile × Bytes) :=
  let targetPath := (splitModPathVersion cfg.target).1
  let stub := strBytes "module m\n" ++
    (if cfg.replace ≠ "" then
      strBytes ("replace " ++ targetPath ++ " => " ++
        (splitModPathVersion cfg.replace).1 ++ " " ++ (splitModPathVersion cfg.replace).2 ++ "\n")
    else [])
  let tmpModPath := pjoin tmp "go.mod"
  let fs1 := fsWrite fs tmpModPath stub
  let tr1 : List Event := [.writeFile tmpModPath]
  match O.goGet cfg.target with
  | none => ⟨.error (.internal "go get"), fs1, tr1 ++ [.execCmd tmp ["go", "get", "-d", cfg.target]]⟩
  | some updated =>
    let fs2 := fsWrite fs1 tmpModPath updated
    let tr2 := tr1 ++ [.execCmd tmp ["go", "get", "-d", cfg.target], .readFile tmpModPath]
    match O.parse tmpModPath updated with
    | none => ⟨.error (.parseError tmpModPath), fs2, tr2⟩
    | some tmpModFile =>
      let sel : String × String :=
        if cfg.replace = "" then
          match tmpModFile.requireList.find? (fun r => r.path = targetPath) with
          | some r => (r.path, r.version)
          | none => ("", "")
        else
          match tmpModFile.replaceList.find? (fun z => z.oldPath = targetPath) with
          | some z => (z.newPath, z.newVersion)
          | none => ("", "")
      match O.encodePath sel.1 with
      | none => ⟨.error (.internal "encode path"), fs2, tr2⟩
      | some encPath =>
        let envOut := getGoModCacheDir O fs2
        match envOut.result with
        | .error e => ⟨.error e, envOut.fs, tr2 ++ envOut.trace⟩
        | .ok modCache =>
          let cacheModPath :=
            pjoin (pjoin (pjoin (pjoin modCache "cache") "download") encPath)
              (pjoin "@v" (sel.2 ++ ".mod"))
          let tr3 := tr2 ++ envOut.trace ++ [.readFile cacheModPath]
          match fsRead envOut.fs cacheModPath with
          | none => ⟨.error (.pathError cacheModPath), envOut.fs, tr3⟩
          | some cacheModBytes =>
            match O.parse cacheModPath cacheModBytes with
            | none => ⟨.error (.parseError cacheModPath), envOut.fs, tr3⟩
            | some mf =>
              let zipHashPath :=
                pjoin (pjoin (pjoin (pjoin modCache "cache") "download") encPath)
                  (pjoin "@v" (sel.2 ++ ".ziphash"))
              let tr4 := tr3 ++ [.readFile zipHashPath]
              match fsRead envOut.fs zipHashPath with
              | none => ⟨.error (.pathError zipHashPath), envOut.fs, tr4⟩
              | some hashBytes => ⟨.ok (mf, hashBytes), envOut.fs, tr4⟩

/-- Remove the temporary directory's contents (`defer os.RemoveAll(tmpDir)`). -/
def fsRemoveUnder (fs : Fs Bytes) (dir : String) : Fs Bytes :=
  fs.filter fun e => !((dir ++ "/").isPrefixOf e.1)

/-- `Resolver.fetchMod`: refuse an empty target, create a temp directory, run
the body, and always remove the temp directory again. -/
def fetchMod (cfg : ResolverConfig) (O : Oracle) (fs : Fs Bytes) : ROut (ModFile × Bytes) :=
  if cfg.target = "" then ⟨.error (.invalid "no target module configured"), fs, []⟩
  else
    match O.tempDir with
    | none => ⟨.error (.internal "temp dir"), fs, []⟩
    | some tmp =>
      let out := fetchModBody cfg O fs tmp
      ⟨out.result, fsRemoveUnder out.fs tmp, out.trace⟩

/-- `Resolver.Resolve`: read `{path}/go.mod` and `{path}/mod.md5`; reuse them
when both reads succeed (parse errors are returned, not refetched), otherwise
fetch the module and persist the formatted manifest and the hash. -/
def Resolve (cfg : ResolverConfig) (O : Oracle) (fs : Fs Bytes) : ROut (ModFile × Bytes) :=
  let modPath := getModPath cfg
  let hashPath := getHashPath cfg
  let tr0 : List Event := [.readFile modPath, .readFile hashPath]
  match fsRead fs modPath, fsRead fs hashPath with
  | some modBytes, some hashBytes =>
    match O.parse modPath modBytes with
    | none => ⟨.error (.parseError modPath), fs, tr0⟩
    | some mf => ⟨.ok (mf, hashBytes), fs, tr0⟩
  | some _, none =>
    resolveFetch cfg O fs modPath hashPath tr0
  | none, some _ =>
    resolveFetch cfg O fs modPath hashPath tr0
  | none, none =>
    resolveFetch cfg O fs modPath hashPath tr0
where
  /-- The fetch-and-persist branch of `Resolve`. -/
  resolveFetch (cfg : ResolverConfig) (O : Oracle) (fs : Fs Bytes)
      (modPath hashPath : String) (tr0 : List Event) : ROut (ModFile × Bytes) :=
    let out := fetchMod cfg O fs
    match out.result with
    | .error e => ⟨.error e, out.fs, tr0 ++ [.callFetchMod] ++ out.trace⟩
    | .ok (mf, hash) =>
      let fs1 := fsWrite out.fs modPath mf.formatted
      let fs2 := fsWrite fs1 hashPath hash
      ⟨.ok (mf, hash), fs2,
        tr0 ++ [.callFetchMod] ++ out.trace ++ [.writeFile modPath, .writeFile hashPath]⟩

/-! ## Plugin cache (`pkg/model/plugin/cache/cache.go`, whole-cache lock
revision)

The cache state carries the configured root path, the resolver it consults,
the shared file system and oracle, whether the `flock.Flock` handle has been
created (`c.lock != nil`), and the mode this process's handle currently
holds on the advisory file lock. -/

/-- The hold this process's `flock` handle has on the sentinel file. -/
inductive FlockMode where
  | unlocked
  | shared
  | exclusive
deriving DecidableEq, Repr

/-- State of a `PluginCache` together with the world it acts on. -/
structure CacheState where
  /-- `CacheConfig.Path`. -/
  path : String
  /-- The resolver configuration of `c.resolver`. -/
  resolver : ResolverConfig
  /-- External-collaborator responses. -/
  oracle : Oracle
  /-- The shared file system. -/
  fs : Fs Bytes
  /-- Whether `c.lock` is non-nil. -/
  lockInit : Bool
  /-- The mode held on the advisory lock. -/
  flockMode : FlockMode

/-- Outcome of a cache operation: value, next state, trace. -/
structure COut (α : Type) where
  result : Except Err α
  state : CacheState
  trace : List Event

/-- `PluginCache.getDir`: resolve the module hash and return
`{root}/{base64.URLEncoding(hash)}`. -/
def cacheGetDir (s : CacheState) : COut String :=
  let out := Resolve s.resolver s.oracle s.fs
  match out.result with
  | .error e => ⟨.error e, {s with fs := out.fs}, out.trace⟩
  | .ok (_, hash) =>
    ⟨.ok (pjoin s.path (base64UrlEncode hash)), {s with fs := out.fs}, out.trace⟩

/-- `PluginCache.GetPath`: `{dir}/{name}-{version}.so` under the hashed
cache directory. -/
def cacheGetPath (s : CacheState) (name version : String) : COut String :=
  let out := cacheGetDir s
  match out.result with
  | .error e => ⟨.error e, out.state, out.trace⟩
  | .ok dir => ⟨.ok (pjoin dir (name ++ "-" ++ version ++ ".so")), out.state, out.trace⟩

/-- `PluginCache.getLock`: return the existing handle, or resolve the cache
directory, create it and the `cache.lock` sentinel, and remember the handle. -/
def cacheGetLock (s : CacheState) : COut Unit :=
  if s.lockInit then ⟨.ok (), s, []⟩
  else
    let out := cacheGetDir s
    match out.result with
    | .error e => ⟨.error e, out.state, out.trace⟩
    | .ok dir =>
      let lockFile := pjoin dir "cache.lock"
      ⟨.ok (), {out.state with fs := fsWrite out.state.fs lockFile [], lockInit := true},
        out.trace ++ [.writeFile lockFile]⟩

/-- `PluginCache.Lock`: acquire the exclusive advisory lock.  The retry loop
runs under `context.Background()`, which is never cancelled, so acquisition
blocks until it succeeds. -/
def cacheLock (s : CacheState) : COut Unit :=
  let out := cacheGetLock s
  match out.result with
  | .error e => ⟨.error e, out.state, out.trace⟩
  | .ok _ => ⟨.ok (), {out.state with flockMode := .exclusive}, out.trace⟩

/-- `PluginCache.Unlock`: release whatever hold the handle has
(`flock.Unlock` is a single release primitive). -/
def cacheUnlock (s : CacheState) : COut Unit :=
  let out := cacheGetLock s
  match out.result with
  | .error e => ⟨.error e, out.state, out.trace⟩
  | .ok _ => ⟨.ok (), {out.state with flockMode := .unlocked}, out.trace⟩

/-- `PluginCache.RLock`: acquire the shared advisory lock. -/
def cacheRLock (s : CacheState) : COut Unit :=
  let out := cacheGetLock s
  match out.result with
  | .error e => ⟨.error e, out.state, out.trace⟩
  | .ok _ => ⟨.ok (), {out.state with flockMode := .shared}, out.trace⟩

/-- `PluginCache.RUnlock`: the source calls the same `lock.Unlock()`
primitive as `PluginCache.Unlock`. -/
def cacheRUnlock (s : CacheState) : COut Unit :=
  let out := cacheGetLock s
  match out.result with
  | .error e => ⟨.error e, out.state, out.trace⟩
  | .ok _ => ⟨.ok (), {out.state with flockMode := .unlocked}, out.trace⟩

/-- `PluginCache.IsLocked`: `c.lock != nil && c.lock.Locked()`. -/
def cacheIsLocked (s : CacheState) : Bool :=
  s.lockInit && s.flockMode == .exclusive

/-- `PluginCache.IsRLocked`:
`c.lock != nil && (c.lock.Locked() || c.lock.RLocked())`. -/
def cacheIsRLocked (s : CacheState) : Bool :=
  s.lockInit && (s.flockMode == .exclusive || s.flockMode == .shared)

/-- `PluginCache.Cached`: demand a held lock, then stat the artifact path. -/
def cacheCached (s : CacheState) (name version : String) : COut Bool :=
  if !(cacheIsRLocked s) then ⟨.error (.conflict "cache is not locked"), s, []⟩
  else
    let out := cacheGetPath s name version
    match out.result with
    | .error e => ⟨.error e, out.state, out.trace⟩
    | .ok path =>
      ⟨.ok (fsMem out.state.fs path), out.state, out.trace ++ [.statFile path]⟩

/-- `PluginCache.Load`: demand a held lock, then dlopen the artifact. -/
def cacheLoad (s : CacheState) (name version : String) : COut Unit :=
  if !(cacheIsRLocked s) then ⟨.error (.conflict "cache is not locked"), s, []⟩
  else
    let out := cacheGetPath s name version
    match out.result with
    | .error e => ⟨.error e, out.state, out.trace⟩
    | .ok path =>
      ⟨s.oracle.loadPlugin path, out.state, out.trace ++ [.openPlugin path]⟩

/-! ## Service facade (`Server.PushModel` in `src/unnamed/part_009`)

`PushModel` is modelled as an interpreter of the Go function with explicit
deferred-call semantics: the two `defer`s registered after a successful
`cache.Lock()` run in LIFO order on every exit, and the `recover()` defer
swallows a panic (the RPC then returns `(nil, nil)`).  A `panicAt` parameter
injects a panic at any point of the body, modelling "a panic raised between
lock acquisition and the response". -/

/-- A module of a `PushModelRequest` (`configmodelapi.ConfigModule`). -/
structure ApiModule where
  name : String
  organization : String
  revision : String
  file : String
deriving DecidableEq, Repr

/-- A `PushModelRequest`'s model payload. -/
structure PushModelRequest where
  name : String
  version : String
  files : List (String × String)
  modules : List ApiModule
deriving DecidableEq, Repr

/-- State the server acts on: registry directory and cache. -/
structure ServerState where
  registry : RegistryConfig
  regFs : Fs Json
  cache : CacheState

/-- Points of the `PushModel` body at which an injected panic can be raised
(each is reached after the previous step's effect). -/
inductive PushStep where
  | regGet
  | buildInfo
  | cachedStep
  | getPathStep
  | compileStep
  | addStep
  | respond
deriving DecidableEq, Repr

/-- Observable outcome of a `PushModel` call: success, a gRPC error, or a
recovered panic (the handler returns `(nil, nil)`). -/
inductive PushResult where
  | success
  | failure (e : Err)
  | recovered
deriving DecidableEq, Repr

/-- Outcome of the body between the deferred unlocks and the return. -/
inductive BodyOut where
  | ret (r : Except Err Unit) (st : ServerState) (tr : List Event)
  | panicked (st : ServerState) (tr : List Event)

/-- The normalized descriptor `PushModel` builds from the request. -/
def buildModelInfo (req : PushModelRequest) : ModelInfo :=
  { name := req.name
    version := req.version
    modules := req.modules.map fun m => ⟨m.name, m.file, m.organization, m.revision⟩
    files := req.files.map fun f => ⟨f.1, strBytes f.2⟩
    plugin := ⟨req.name, req.version⟩ }

/-- The final `registry.AddModel` step of the body. -/
def pushAdd (panicAt : Option PushStep) (st : ServerState) (tr : List Event)
    (mi : ModelInfo) : BodyOut :=
  if panicAt = some .addStep then .panicked st tr
  else
    let st1 : ServerState := {st with regFs := AddModel st.registry st.regFs mi}
    let tr1 := tr ++ [.regWrite (getDescriptorFile st.registry mi.name mi.version)]
    if panicAt = some .respond then .panicked st1 tr1
    else .ret (.ok ()) st1 tr1

/-- The body of `Server.PushModel` after the lock is held: registry
pre-check, descriptor normalization, cache check, compile on miss, register. -/
def pushBody (panicAt : Option PushStep) (req : PushModelRequest) (st : ServerState) :
    BodyOut :=
  if panicAt = some .regGet then .panicked st []
  else
    let e1 : Err :=
      match GetModel st.registry st.regFs req.name req.version with
      | .ok _ => .alreadyExists ("model '" ++ req.name ++ "/" ++ req.version ++ "' already exists")
      | .error e => e
    if ¬ isNotFound e1 then .ret (.error e1) st []
    else if panicAt = some .buildInfo then .panicked st []
    else
      let mi := buildModelInfo req
      if panicAt = some .cachedStep then .panicked st []
      else
        let co := cacheCached st.cache req.name req.version
        let st1 : ServerState := {st with cache := co.state}
        match co.result with
        | .error e => .ret (.error e) st1 co.trace
        | .ok isCached =>
          if isCached then pushAdd panicAt st1 co.trace mi
          else if panicAt = some .getPathStep then .panicked st1 co.trace
          else
            let po := cacheGetPath st1.cache req.name req.version
            let st2 : ServerState := {st1 with cache := po.state}
            let tr2 := co.trace ++ po.trace
            match po.result with
            | .error e => .ret (.error e) st2 tr2
            | .ok path =>
              if panicAt = some .compileStep then .panicked st2 tr2
              else
                match st2.cache.oracle.compile mi path with
                | .error e => .ret (.error e) st2 (tr2 ++ [.compileCall path])
                | .ok artifact =>
                  let st3 : ServerState :=
                    {st2 with cache :=
                      {st2.cache with fs := fsWrite st2.cache.fs path artifact}}
                  pushAdd panicAt st3 (tr2 ++ [.compileCall path]) mi

/-- `Server.PushModel`: lock, run the body with its two deferred unlocks, and
translate the outcome to the RPC result. -/
def PushModel (panicAt : Option PushStep) (req : PushModelRequest) (st : ServerState) :
    PushResult × ServerState × List Event :=
  let lo := cacheLock st.cache
  let st0 : ServerState := {st with cache := lo.state}
  match lo.result with
  | .error e => (.failure e, st0, lo.trace)
  | .ok _ =>
    match pushBody panicAt req st0 with
    | .ret r st1 tr1 =>
      let uo := cacheUnlock st1.cache
      let st2 : ServerState := {st1 with cache := uo.state}
      (match r with
        | .ok _ => .success
        | .error e => .failure e,
       st2, lo.trace ++ tr1 ++ uo.trace)
    | .panicked st1 tr1 =>
      let uo := cacheUnlock st1.cache
      let st2 : ServerState := {st1 with cache := uo.state}
      let uo2 := cacheUnlock st2.cache
      let st3 : ServerState := {st2 with cache := uo2.state}
      (.recovered, st3, lo.trace ++ tr1 ++ uo.trace ++ uo2.trace)

/-- Final server state of a body outcome. -/
def BodyOut.state : BodyOut → ServerState
  | .ret _ st _ => st
  | .panicked st _ => st

/-- Whether a trace launches no plugin compilation and writes no registry
file. -/
def pushEffectFree (tr : List Event) : Bool :=
  tr.all fun e =>
    match e with
    | .compileCall _ => false
    | .regWrite _ => false
    | _ => true

/-! ## Concrete instances used by the witnesses -/

/-- A concrete parsed manifest. -/
def mfEx : ModFile :=
  ⟨[⟨"github.com/example/target", "v1.0.0"⟩], [], strBytes "module target\n"⟩

/-- A concrete external-collaborator oracle. -/
def oracleEx : Oracle where
  parse := fun _ _ => some mfEx
  tempDir := some "/tmp/config-model"
  goGet := fun _ => some (strBytes "module m\nrequire github.com/example/target v1.0.0\n")
  goEnv := some ⟨"/root/go", ""⟩
  encodePath := fun p => some p
  loadPlugin := fun _ => .ok ()
  compile := fun _ _ => .ok (strBytes "so")

/-- A concrete resolver configuration. -/
def rcfgEx : ResolverConfig := ⟨"/etc/onos/mod", "github.com/example/target@v1.0.0", ""⟩

/-- A resolver file system holding a memoized `go.mod` and `mod.md5` pair. -/
def rfsEx : Fs Bytes :=
  [ (pjoin "/etc/onos/mod" "go.mod", strBytes "module target\n"),
    (pjoin "/etc/onos/mod" "mod.md5", strBytes "hash") ]

/-- A cache on the memoized resolver state, holding no lock. -/
def cacheEx : CacheState :=
  ⟨"/etc/onos/plugins", rcfgEx, oracleEx, rfsEx, false, .unlocked⟩

/-- The same cache with an exclusive hold on the advisory lock. -/
def cacheExclusiveEx : CacheState :=
  { cacheEx with lockInit := true, flockMode := .exclusive }

/-- A concrete registry configuration. -/
def regcfgEx : RegistryConfig := ⟨"/etc/onos/registry"⟩

/-- A concrete descriptor (the spec's round-trip scenario). -/
def mEx : ModelInfo :=
  ⟨"foo", "1.0.0", [⟨"bar", "bar.yang", "ONF", "2020-11-18"⟩],
    [⟨"bar.yang", strBytes "Hello world!"⟩], ⟨"foo", "1.0.0"⟩⟩

/-- The push request for that descriptor. -/
def reqEx : PushModelRequest :=
  ⟨"foo", "1.0.0", [("bar.yang", "Hello world!")], [⟨"bar", "ONF", "2020-11-18", "bar.yang"⟩]⟩

/-- A server over a fresh registry. -/
def stEx : ServerState := ⟨regcfgEx, [], cacheEx⟩

/-- A server whose registry already holds the descriptor. -/
def stDupEx : ServerState := ⟨regcfgEx, AddModel regcfgEx [] mEx, cacheEx⟩

/-- A descriptor document with an empty name. -/
def badDocEx : Json := .obj [("name", .str ""), ("version", .str "1.0.0")]

/-- A registry file system holding only the bad descriptor. -/
def badFsEx : Fs Json := [(pjoin "/etc/onos/registry" "bad-1.0.0.json", badDocEx)]

/-! ## Helper lemmas -/

@[simp] theorem fsRead_nil {α : Type} (p : String) : fsRead ([] : Fs α) p = none := rfl

@[simp] theorem fsRead_cons {α : Type} (q : String) (v : α) (rest : Fs α) (p : String) :
    fsRead ((q, v) :: rest) p = if q = p then some v else fsRead rest p := rfl

@[simp] theorem fsRead_fsRemove_self {α : Type} (fs : Fs α) (p : String) :
    fsRead (fsRemove fs p) p = none := by
  induction fs with
  | nil => rfl
  | cons e rest ih =>
    obtain ⟨q, v⟩ := e
    by_cases h : q = p
    · simp [fsRemove, h, ih]
    · simp [fsRemove, fsRead, h, ih]

theorem fsRead_fsRemove_other {α : Type} (fs : Fs α) (p q : String) (h : p ≠ q) :
    fsRead (fsRemove fs p) q = fsRead fs q := by
  induction fs with
  | nil => rfl
  | cons e rest ih =>
    obtain ⟨r, v⟩ := e
    by_cases he : r = p
    · subst he
      simp [fsRemove, fsRead, ih, h]
    · simp [fsRemove, fsRead, he, ih]

@[simp] theorem fsRead_fsWrite_self {α : Type} (fs : Fs α) (p : String) (v : α) :
    fsRead (fsWrite fs p v) p = some v := by
  simp [fsWrite]

theorem fsRead_fsWrite_other {α : Type} (fs : Fs α) (p q : String) (v : α) (h : p ≠ q) :
    fsRead (fsWrite fs p v) q = fsRead fs q := by
  simp [fsWrite, fsRead, fun hpq => h hpq, fsRead_fsRemove_other fs p q h]


theorem decodeElems_map_moduleInfo (l : List ModuleInfo) :
    jAsArr.decodeElems decodeModuleInfo (l.map encodeModuleInfo) = some l := by
  induction l with
  | nil => rfl
  | cons m rest ih =>
    simp [jAsArr.decodeElems, ih, encodeModuleInfo, decodeModuleInfo, jField, jAsStr]

theorem decodeElems_map_fileInfo (l : List FileInfo) :
    jAsArr.decodeElems decodeFileInfo (l.map encodeFileInfo) = some l := by
  induction l with
  | nil => rfl
  | cons f rest ih =>
    simp [jAsArr.decodeElems, ih, encodeFileInfo, decodeFileInfo, jField, jAsStr, jAsBytes]

/-- Round trip: decoding an encoded descriptor restores it exactly. -/
theorem decode_encode_modelInfo (m : ModelInfo) :
    decodeModelInfo (encodeModelInfo m) = some m := by
  simp [encodeModelInfo, decodeModelInfo, jField, jAsStr, jAsArr,
    decodeElems_map_moduleInfo, decodeElems_map_fileInfo,
    encodePluginInfo, decodePluginInfo]

theorem loadModelsFrom_mem_error (fs : Fs Json) (files : List String) (p : String)
    (hp : p ∈ files) (e : Err) (he : loadModel fs p = .error e) :
    ∃ e', loadModelsFrom fs files = .error e' := by
  induction files with
  | nil => cases hp
  | cons q rest ih =>
    rcases List.mem_cons.mp hp with hq | hrest
    · subst hq
      exact ⟨e, by simp [loadModelsFrom, he]⟩
    · rcases ih hrest with ⟨e', he'⟩
      cases hq : loadModel fs q with
      | error e0 => exact ⟨e0, by simp [loadModelsFrom, hq]⟩
      | ok m => exact ⟨e', by simp [loadModelsFrom, hq, he']⟩

theorem callFetchMod_mem_resolveFetch (cfg : ResolverConfig) (O : Oracle)
    (fs : Fs Bytes) (modPath hashPath : String) (tr0 : List Event) :
    Event.callFetchMod ∈ (Resolve.resolveFetch cfg O fs modPath hashPath tr0).trace := by
  simp only [Resolve.resolveFetch]
  split <;> simp

theorem pushEffectFree_append (a b : List Event) :
    pushEffectFree (a ++ b) = (pushEffectFree a && pushEffectFree b) := by
  simp [pushEffectFree, List.all_append]

theorem getGoModCacheDir_trace (O : Oracle) (fs : Fs Bytes) :
    (getGoModCacheDir O fs).trace =
      [.execCmd "." ["go", "env", "-json", "GOPATH", "GOMODCACHE"]] := by
  simp only [getGoModCacheDir]
  split <;> rfl

theorem fetchModBody_effectFree (cfg : ResolverConfig) (O : Oracle) (fs : Fs Bytes)
    (tmp : String) : pushEffectFree (fetchModBody cfg O fs tmp).trace = true := by
  simp only [fetchModBody]
  repeat' split
  all_goals
    simp [pushEffectFree_append, getGoModCacheDir_trace, pushEffectFree]

theorem pushEffectFree_callFetchMod : pushEffectFree [Event.callFetchMod] = true := rfl

theorem pushEffectFree_cons_callFetchMod (tr : List Event) :
    pushEffectFree (Event.callFetchMod :: tr) = pushEffectFree tr := rfl

theorem pushEffectFree_write (p : String) :
    pushEffectFree [Event.writeFile p] = true := rfl

theorem pushEffectFree_two_writes (p q : String) :
    pushEffectFree [Event.writeFile p, Event.writeFile q] = true := rfl

theorem fetchMod_effectFree (cfg : ResolverConfig) (O : Oracle) (fs : Fs Bytes) :
    pushEffectFree (fetchMod cfg O fs).trace = true := by
  simp only [fetchMod]
  repeat' split
  all_goals first
    | rfl
    | exact fetchModBody_effectFree cfg O fs _

theorem resolveFetch_effectFree (cfg : ResolverConfig) (O : Oracle) (fs : Fs Bytes)
    (modPath hashPath : String) (tr0 : List Event) (h0 : pushEffectFree tr0 = true) :
    pushEffectFree (Resolve.resolveFetch cfg O fs modPath hashPath tr0).trace = true := by
  simp only [Resolve.resolveFetch]
  split <;>
    simp [pushEffectFree_append, h0, fetchMod_effectFree,
      pushEffectFree_callFetchMod, pushEffectFree_cons_callFetchMod,
      pushEffectFree_two_writes]

theorem resolve_effectFree (cfg : ResolverConfig) (O : Oracle) (fs : Fs Bytes) :
    pushEffectFree (Resolve cfg O fs).trace = true := by
  simp only [Resolve]
  split
  · split <;> rfl
  · exact resolveFetch_effectFree cfg O fs _ _ _ rfl
  · exact resolveFetch_effectFree cfg O fs _ _ _ rfl
  · exact resolveFetch_effectFree cfg O fs _ _ _ rfl

theorem cacheGetDir_effectFree (s : CacheState) :
    pushEffectFree (cacheGetDir s).trace = true := by
  simp only [cacheGetDir]
  split <;> simp [resolve_effectFree]

theorem cacheGetPath_effectFree (s : CacheState) (name version : String) :
    pushEffectFree (cacheGetPath s name version).trace = true := by
  simp only [cacheGetPath]
  split <;> simp [cacheGetDir_effectFree]

theorem cacheGetLock_effectFree (s : CacheState) :
    pushEffectFree (cacheGetLock s).trace = true := by
  simp only [cacheGetLock]
  split
  · rfl
  · split <;> simp [pushEffectFree_append, cacheGetDir_effectFree, pushEffectFree_write]

theorem cacheLock_effectFree (s : CacheState) :
    pushEffectFree (cacheLock s).trace = true := by
  simp only [cacheLock]
  split <;> simp [cacheGetLock_effectFree]

theorem cacheUnlock_effectFree (s : CacheState) :
    pushEffectFree (cacheUnlock s).trace = true := by
  simp only [cacheUnlock]
  split <;> simp [cacheGetLock_effectFree]

theorem cacheGetDir_state_lockInit (s : CacheState) :
    (cacheGetDir s).state.lockInit = s.lockInit := by
  simp only [cacheGetDir]
  split <;> rfl

theorem cacheGetPath_state_lockInit (s : CacheState) (name version : String) :
    (cacheGetPath s name version).state.lockInit = s.lockInit := by
  simp only [cacheGetPath]
  split <;> simp [cacheGetDir_state_lockInit]

theorem cacheCached_state_lockInit (s : CacheState) (name version : String) :
    (cacheCached s name version).state.lockInit = s.lockInit := by
  simp only [cacheCached]
  split
  · rfl
  · split <;> simp [cacheGetPath_state_lockInit]

theorem cacheGetLock_lockInit (s : CacheState) :
    (cacheGetLock s).result = .ok () → (cacheGetLock s).state.lockInit = true := by
  simp only [cacheGetLock]
  split
  · next hinit => intro _; simpa using hinit
  · split
    · intro h; simp at h
    · intro _; rfl

theorem cacheLock_ok_state (s : CacheState) (h : (cacheLock s).result = .ok ()) :
    (cacheLock s).state.lockInit = true := by
  have hg : (cacheGetLock s).result = .ok () := by
    simp only [cacheLock] at h
    cases hgl : (cacheGetLock s).result with
    | error e => rw [hgl] at h; simp at h
    | ok u => rfl
  have hI := cacheGetLock_lockInit s hg
  simp only [cacheLock, hg]
  simpa using hI

theorem cacheUnlock_of_init (s : CacheState) (h : s.lockInit = true) :
    cacheUnlock s = ⟨.ok (), {s with flockMode := .unlocked}, []⟩ := by
  simp [cacheUnlock, cacheGetLock, h]

@[simp] theorem BodyOut_state_ret (r : Except Err Unit) (st : ServerState) (tr : List Event) :
    (BodyOut.ret r st tr).state = st := rfl

@[simp] theorem BodyOut_state_panicked (st : ServerState) (tr : List Event) :
    (BodyOut.panicked st tr).state = st := rfl

theorem BodyOut_state_ite (c : Prop) [Decidable c] (a b : BodyOut) :
    (if c then a else b).state = if c then a.state else b.state := by
  split <;> rfl

set_option maxHeartbeats 1000000 in
theorem pushBody_lockInit (panicAt : Option PushStep) (req : PushModelRequest)
    (st : ServerState) :
    (pushBody panicAt req st).state.cache.lockInit = st.cache.lockInit := by
  unfold pushBody pushAdd
  repeat' split
  all_goals
    repeat
      first
        | rfl
        | split
        | simp [isNotFound, BodyOut_state_ite, ite_self, cacheCached_state_lockInit,
            cacheGetPath_state_lockInit]

theorem getModPath_ne_getHashPath (cfg : ResolverConfig) :
    getModPath cfg ≠ getHashPath cfg := by
  intro h
  have h2 := congrArg String.length h
  simp [getModPath, getHashPath, pjoin, String.length_append] at h2
  exact absurd h2 (by decide)

theorem resolveFetch_writes (cfg : ResolverConfig) (O : Oracle) (fs : Fs Bytes)
    (tr0 : List Event) (mf : ModFile) (hash : Bytes)
    (hf : (fetchMod cfg O fs).result = .ok (mf, hash)) :
    (Resolve.resolveFetch cfg O fs (getModPath cfg) (getHashPath cfg) tr0).result
        = .ok (mf, hash) ∧
    fsRead (Resolve.resolveFetch cfg O fs (getModPath cfg) (getHashPath cfg) tr0).fs
        (getModPath cfg) = some mf.formatted ∧
    fsRead (Resolve.resolveFetch cfg O fs (getModPath cfg) (getHashPath cfg) tr0).fs
        (getHashPath cfg) = some hash := by
  have hne : getModPath cfg ≠ getHashPath cfg := getModPath_ne_getHashPath cfg
  refine ⟨?_, ?_, ?_⟩
  · simp [Resolve.resolveFetch, hf]
  · simp only [Resolve.resolveFetch, hf]
    rw [fsRead_fsWrite_other _ _ _ _ (fun h => hne h.symm), fsRead_fsWrite_self]
  · simp only [Resolve.resolveFetch, hf]
    simp [fsRead_fsWrite_self]

/-! ## Claim theorems -/

/-- C3: for every descriptor with non-empty name and version, `AddModel`
writes the JSON serialization to `{path}/{name}-{version}.json`, silently
overwriting any existing file, and a subsequent `GetModel` for the same key
succeeds with a descriptor equal to the one added (so equal on the identity
fields in particular). -/
theorem c3_add_then_get (cfg : RegistryConfig) (fs : Fs Json) (m : ModelInfo)
    (hn : m.name ≠ "") (hv : m.version ≠ "") :
    fsRead (AddModel cfg fs m) (getDescriptorFile cfg m.name m.version)
        = some (encodeModelInfo m) ∧
    GetModel cfg (AddModel cfg fs m) m.name m.version = .ok m := by
  refine ⟨by simp [AddModel], ?_⟩
  simp [GetModel, AddModel, loadModel, decode_encode_modelInfo, hn, hv]

/-- C3 witness at the spec's round-trip descriptor. -/
theorem c3_witness :
    GetModel regcfgEx (AddModel regcfgEx [] mEx) mEx.name mEx.version = .ok mEx :=
  (c3_add_then_get regcfgEx [] mEx (by decide) (by decide)).2

/-- C7: a descriptor file whose bytes read and whose JSON decodes but whose
name or version is empty loads as an Invalid error with no descriptor —
directly through `loadModel`, through `GetModel` at any key resolving to
that file, and it makes `ListModels` fail whenever the walk collects the
file. -/
theorem c7_empty_identity_invalid (fs : Fs Json) (path : String) (doc : Json)
    (mi : ModelInfo) (hread : fsRead fs path = some doc)
    (hdec : decodeModelInfo doc = some mi)
    (hempty : mi.name = "" ∨ mi.version = "") :
    loadModel fs path = .error (.invalid (path ++ " is not a valid model descriptor")) ∧
    (∀ cfg name version, getDescriptorFile cfg name version = path →
      GetModel cfg fs name version =
        .error (.invalid (path ++ " is not a valid model descriptor"))) ∧
    (∀ cfg : RegistryConfig, path ∈ jsonFilesUnder fs cfg.path →
      ∃ e, ListModels cfg fs = .error e) := by
  have hload : loadModel fs path =
      .error (.invalid (path ++ " is not a valid model descriptor")) := by
    simp only [loadModel, hread, hdec]
    rw [if_pos hempty]
  refine ⟨hload, ?_, ?_⟩
  · intro cfg name version heq
    simpa [GetModel, heq] using hload
  · intro cfg hmem
    exact loadModelsFrom_mem_error fs (jsonFilesUnder fs cfg.path) path hmem _ hload

/-- C7 witness: a stored descriptor with an empty name. -/
theorem c7_witness :
    loadModel badFsEx (pjoin "/etc/onos/registry" "bad-1.0.0.json") =
      .error (.invalid (pjoin "/etc/onos/registry" "bad-1.0.0.json" ++
        " is not a valid model descriptor")) :=
  (c7_empty_identity_invalid badFsEx (pjoin "/etc/onos/registry" "bad-1.0.0.json")
    badDocEx ⟨"", "1.0.0", [], [], ⟨"", ""⟩⟩ rfl rfl (Or.inl rfl)).1

/-- C8: removing a model whose descriptor file is absent succeeds and leaves
the registry unchanged; removing an existing model succeeds, unlinks exactly
the descriptor file and touches no other file. -/
theorem c8_remove_model (cfg : RegistryConfig) (fs : Fs Json) (name version : String) :
    (fsMem fs (getDescriptorFile cfg name version) = false →
      RemoveModel cfg fs name version = .ok fs) ∧
    (fsMem fs (getDescriptorFile cfg name version) = true →
      RemoveModel cfg fs name version =
        .ok (fsRemove fs (getDescriptorFile cfg name version)) ∧
      fsRead (fsRemove fs (getDescriptorFile cfg name version))
        (getDescriptorFile cfg name version) = none ∧
      ∀ q, q ≠ getDescriptorFile cfg name version →
        fsRead (fsRemove fs (getDescriptorFile cfg name version)) q = fsRead fs q) := by
  constructor
  · intro h
    simp [RemoveModel, h]
  · intro h
    refine ⟨by simp [RemoveModel, h], fsRead_fsRemove_self fs _, ?_⟩
    intro q hq
    exact fsRead_fsRemove_other fs _ q (fun he => hq he.symm)

/-- C2: when `{path}/go.mod` and `{path}/mod.md5` are both readable and the
`go.mod` parses, `Resolve` returns the parsed persisted manifest together
with exactly the stored hash bytes, runs no subprocess and leaves the file
system untouched (its whole trace is the two file reads); the fetch path is
taken exactly when one of the two reads fails; and a successful fetch
rewrites both files. -/
theorem c2_resolve_memoized (cfg : ResolverConfig) (O : Oracle) (fs : Fs Bytes) :
    (∀ modBytes hashBytes mf,
      fsRead fs (getModPath cfg) = some modBytes →
      fsRead fs (getHashPath cfg) = some hashBytes →
      O.parse (getModPath cfg) modBytes = some mf →
      Resolve cfg O fs =
        ⟨.ok (mf, hashBytes), fs,
          [.readFile (getModPath cfg), .readFile (getHashPath cfg)]⟩) ∧
    (Event.callFetchMod ∈ (Resolve cfg O fs).trace ↔
      (fsRead fs (getModPath cfg) = none ∨ fsRead fs (getHashPath cfg) = none)) ∧
    (∀ mf hash,
      (fsRead fs (getModPath cfg) = none ∨ fsRead fs (getHashPath cfg) = none) →
      (fetchMod cfg O fs).result = .ok (mf, hash) →
      (Resolve cfg O fs).result = .ok (mf, hash) ∧
      fsRead (Resolve cfg O fs).fs (getModPath cfg) = some mf.formatted ∧
      fsRead (Resolve cfg O fs).fs (getHashPath cfg) = some hash) := by
  refine ⟨?_, ?_, ?_⟩
  · intro modBytes hashBytes mf hm hh hp
    simp [Resolve, hm, hh, hp]
  · cases hm : fsRead fs (getModPath cfg) with
    | none =>
      cases hh : fsRead fs (getHashPath cfg) with
      | none =>
        simpa [Resolve, hm, hh] using
          callFetchMod_mem_resolveFetch cfg O fs (getModPath cfg) (getHashPath cfg) _
      | some hb =>
        simpa [Resolve, hm, hh] using
          callFetchMod_mem_resolveFetch cfg O fs (getModPath cfg) (getHashPath cfg) _
    | some mb =>
      cases hh : fsRead fs (getHashPath cfg) with
      | none =>
        simpa [Resolve, hm, hh] using
          callFetchMod_mem_resolveFetch cfg O fs (getModPath cfg) (getHashPath cfg) _
      | some hb =>
        cases hp : O.parse (getModPath cfg) mb with
        | none => simp [Resolve, hm, hh, hp]
        | some mf => simp [Resolve, hm, hh, hp]
  · intro mf hash hfail hfetch
    have hw := resolveFetch_writes cfg O fs
      [Event.readFile (getModPath cfg), Event.readFile (getHashPath cfg)] mf hash hfetch
    rcases hfail with hfail | hfail
    · cases hh : fsRead fs (getHashPath cfg) with
      | none => simpa [Resolve, hfail, hh] using hw
      | some hb => simpa [Resolve, hfail, hh] using hw
    · cases hm : fsRead fs (getModPath cfg) with
      | none => simpa [Resolve, hm, hfail] using hw
      | some mb => simpa [Resolve, hm, hfail] using hw

/-- C2 witness: a memoized pair is reused with no subprocess launched. -/
theorem c2_witness :
    Resolve rcfgEx oracleEx rfsEx =
      ⟨.ok (mfEx, strBytes "hash"), rfsEx,
        [.readFile (getModPath rcfgEx), .readFile (getHashPath rcfgEx)]⟩ :=
  (c2_resolve_memoized rcfgEx oracleEx rfsEx).1
    (strBytes "module target\n") (strBytes "hash") mfEx rfl rfl rfl

/-- C9: on the memoized path the resolver's entire outcome is independent of
the configured target and replace modules — two resolvers sharing a path
agree whenever both persisted files are readable, so a changed or empty
target goes undetected there. -/
theorem c9_resolve_config_noninterference (p t1 r1 t2 r2 : String) (O : Oracle)
    (fs : Fs Bytes) (modBytes hashBytes : Bytes)
    (hm : fsRead fs (pjoin p "go.mod") = some modBytes)
    (hh : fsRead fs (pjoin p "mod.md5") = some hashBytes) :
    Resolve ⟨p, t1, r1⟩ O fs = Resolve ⟨p, t2, r2⟩ O fs := by
  cases hp : O.parse (pjoin p "go.mod") modBytes with
  | none => simp [Resolve, getModPath, getHashPath, hm, hh, hp]
  | some mf => simp [Resolve, getModPath, getHashPath, hm, hh, hp]

/-- C9 witness: two configurations differing in target and replace agree on
the memoized pair. -/
theorem c9_witness :
    Resolve ⟨"/etc/onos/mod", "github.com/example/target@v1.0.0", ""⟩ oracleEx rfsEx =
    Resolve ⟨"/etc/onos/mod", "github.com/other/module@v9.9.9", "github.com/fork/module@v0.1.0"⟩
      oracleEx rfsEx :=
  c9_resolve_config_noninterference "/etc/onos/mod" _ _ _ _ oracleEx rfsEx
    (strBytes "module target\n") (strBytes "hash") rfl rfl

/-- C8 witness: removal of an existing key and of a missing key. -/
theorem c8_witness :
    RemoveModel regcfgEx (AddModel regcfgEx [] mEx) "foo" "1.0.0" =
      .ok (fsRemove (AddModel regcfgEx [] mEx) (getDescriptorFile regcfgEx "foo" "1.0.0")) ∧
    RemoveModel regcfgEx [] "foo" "1.0.0" = .ok [] :=
  ⟨((c8_remove_model regcfgEx (AddModel regcfgEx [] mEx) "foo" "1.0.0").2 rfl).1,
    (c8_remove_model regcfgEx [] "foo" "1.0.0").1 rfl⟩

/-- C5: Cached and Load called while the process holds neither a shared nor
an exclusive advisory lock fail with a Conflict error, leave the state
untouched, stat no artifact and open no plugin (the trace is empty). -/
theorem c5_cached_load_require_lock (s : CacheState) (name version : String)
    (h : s.flockMode = .unlocked) :
    cacheCached s name version = ⟨.error (.conflict "cache is not locked"), s, []⟩ ∧
    cacheLoad s name version = ⟨.error (.conflict "cache is not locked"), s, []⟩ := by
  have hr : cacheIsRLocked s = false := by
    simp [cacheIsRLocked, h]
  constructor
  · simp [cacheCached, hr]
  · simp [cacheLoad, hr]

/-- C5 witness: a lock-free cache rejects Cached and Load. -/
theorem c5_witness :
    cacheCached cacheEx "foo" "1.0.0" =
      ⟨.error (.conflict "cache is not locked"), cacheEx, []⟩ ∧
    cacheLoad cacheEx "foo" "1.0.0" =
      ⟨.error (.conflict "cache is not locked"), cacheEx, []⟩ :=
  c5_cached_load_require_lock cacheEx "foo" "1.0.0" rfl

/-- C6: GetPath returns `{cache_root}/{base64url(hash)}/{name}-{version}.so`
where `hash` is the hash the resolver's Resolve returns and base64url is the
URL-safe base64 encoding of those bytes. -/
theorem c6_cache_get_path (s : CacheState) (name version : String) (mf : ModFile)
    (hash : Bytes)
    (hres : (Resolve s.resolver s.oracle s.fs).result = .ok (mf, hash)) :
    (cacheGetPath s name version).result =
      .ok (pjoin (pjoin s.path (base64UrlEncode hash)) (name ++ "-" ++ version ++ ".so")) := by
  simp [cacheGetPath, cacheGetDir, hres]

/-- C6 witness: with the memoized hash bytes "hash" the artifact path is
`/etc/onos/plugins/aGFzaA==/foo-1.0.0.so`. -/
theorem c6_witness :
    (cacheGetPath cacheEx "foo" "1.0.0").result =
      .ok (pjoin (pjoin "/etc/onos/plugins" (base64UrlEncode (strBytes "hash")))
        ("foo" ++ "-" ++ "1.0.0" ++ ".so")) ∧
    base64UrlEncode (strBytes "hash") = "aGFzaA==" :=
  ⟨c6_cache_get_path cacheEx "foo" "1.0.0" mfEx (strBytes "hash") rfl, rfl⟩

/-- C10: RUnlock and Unlock both call the file lock's single Unlock
primitive, so the two operations are one and the same function of the cache
state; in particular releasing a "read lock" on a cache holding the
exclusive lock releases that exclusive hold. -/
theorem c10_runlock_eq_unlock :
    (∀ s : CacheState, cacheRUnlock s = cacheUnlock s) ∧
    (∀ s : CacheState, s.lockInit = true → s.flockMode = .exclusive →
      (cacheRUnlock s).result = .ok () ∧
      (cacheRUnlock s).state.flockMode = .unlocked) := by
  refine ⟨fun s => rfl, fun s hinit hm => ?_⟩
  constructor <;> simp [cacheRUnlock, cacheGetLock, hinit]

/-- C10 witness: RUnlock on an exclusively locked cache equals Unlock and
leaves it unlocked. -/
theorem c10_witness :
    cacheRUnlock cacheExclusiveEx = cacheUnlock cacheExclusiveEx ∧
    (cacheRUnlock cacheExclusiveEx).state.flockMode = .unlocked :=
  ⟨c10_runlock_eq_unlock.1 cacheExclusiveEx,
    (c10_runlock_eq_unlock.2 cacheExclusiveEx rfl rfl).2⟩

/-- C1: once PushModel holds the exclusive cache lock it consults the
registry first: a descriptor already registered under `(name, version)`
makes it fail AlreadyExists having compiled nothing and registered nothing,
and a registry lookup error other than NotFound is returned as the failure,
again with no compile and no registry write (the registry file system is
returned unchanged). -/
theorem c1_push_prechecks_registry (req : PushModelRequest) (st : ServerState)
    (hlock : (cacheLock st.cache).result = .ok ()) :
    (∀ m, GetModel st.registry st.regFs req.name req.version = .ok m →
      (PushModel none req st).1 =
        .failure (.alreadyExists
          ("model '" ++ req.name ++ "/" ++ req.version ++ "' already exists")) ∧
      pushEffectFree (PushModel none req st).2.2 = true ∧
      (PushModel none req st).2.1.regFs = st.regFs) ∧
    (∀ e, GetModel st.registry st.regFs req.name req.version = .error e →
      isNotFound e = false →
      (PushModel none req st).1 = .failure e ∧
      pushEffectFree (PushModel none req st).2.2 = true ∧
      (PushModel none req st).2.1.regFs = st.regFs) := by
  constructor
  · intro m hget
    have hb : pushBody none req {st with cache := (cacheLock st.cache).state} =
        .ret (.error (.alreadyExists
            ("model '" ++ req.name ++ "/" ++ req.version ++ "' already exists")))
          {st with cache := (cacheLock st.cache).state} [] := by
      simp [pushBody, hget, isNotFound]
    refine ⟨?_, ?_, ?_⟩ <;>
      simp [PushModel, hlock, hb, pushEffectFree_append,
        cacheLock_effectFree, cacheUnlock_effectFree]
  · intro e hget hnf
    have hb : pushBody none req {st with cache := (cacheLock st.cache).state} =
        .ret (.error e) {st with cache := (cacheLock st.cache).state} [] := by
      simp [pushBody, hget, hnf]
    refine ⟨?_, ?_, ?_⟩ <;>
      simp [PushModel, hlock, hb, pushEffectFree_append,
        cacheLock_effectFree, cacheUnlock_effectFree]

/-- C1 witness: a duplicate push fails AlreadyExists. -/
theorem c1_witness :
    (PushModel none reqEx stDupEx).1 =
      .failure (.alreadyExists
        ("model '" ++ reqEx.name ++ "/" ++ reqEx.version ++ "' already exists")) ∧
    pushEffectFree (PushModel none reqEx stDupEx).2.2 = true :=
  have h := (c1_push_prechecks_registry reqEx stDupEx rfl).1 mEx rfl
  ⟨h.1, h.2.1⟩

/-- C4: every execution of PushModel that acquires the cache lock releases
it on every exit path — normal return, every error return, and a panic
injected at any point of the body — whatever the request and world state. -/
theorem c4_push_releases_lock (panicAt : Option PushStep) (req : PushModelRequest)
    (st : ServerState) (hlock : (cacheLock st.cache).result = .ok ()) :
    (PushModel panicAt req st).2.1.cache.flockMode = .unlocked := by
  have hInit : (cacheLock st.cache).state.lockInit = true := cacheLock_ok_state st.cache hlock
  have hBody := pushBody_lockInit panicAt req {st with cache := (cacheLock st.cache).state}
  simp only [PushModel, hlock]
  cases hb : pushBody panicAt req {st with cache := (cacheLock st.cache).state} with
  | ret r st1 tr1 =>
    have h1 : st1.cache.lockInit = true := by
      rw [hb] at hBody
      simpa [hInit] using hBody
    simp [cacheUnlock_of_init st1.cache h1]
  | panicked st1 tr1 =>
    have h1 : st1.cache.lockInit = true := by
      rw [hb] at hBody
      simpa [hInit] using hBody
    have h2 := cacheUnlock_of_init st1.cache h1
    have h3 := cacheUnlock_of_init ({st1.cache with flockMode := FlockMode.unlocked}) h1
    simp [h2, h3]

/-- C4 witness: a panic injected at the compile step still ends with the
lock released. -/
theorem c4_witness :
    (PushModel (some .compileStep) reqEx stEx).2.1.cache.flockMode = .unlocked :=
  c4_push_releases_lock (some .compileStep) reqEx stEx rfl

end Onos
